import Mathlib

/-!
Verification of the contact-ledger program (`agent.py`): validated fields
(phone, birthday), contact records, the address-book ledger, the
upcoming-birthday scheduling query, and the command handlers with their
error-translating decorator.

Python strings are modelled as Lean `String` (ASCII fragment); Python
`datetime.date` values are modelled as a `Date` structure of year/month/day
naturals, with the proleptic-Gregorian ordinal (`rataDie`) standing in for
`date.toordinal()`: date subtraction `(a - b).days` is the difference of
ordinals, `date.weekday()` (Monday = 0) is derived from the ordinal, and
adding `timedelta(days = 1)` is the calendar successor `nextDay` (the lemma
`rataDie_nextDay` ties it to ordinal arithmetic). Exceptions are modelled
with `Except`: `ValueError`, `KeyError`, `IndexError` and the generic
catch-all of the `input_error` decorator become the `PyErr` type.
-/

/-- Gregorian leap-year test, as used by `datetime`. -/
def isLeap (y : Nat) : Bool :=
  y % 4 == 0 && (y % 100 != 0 || y % 400 == 0)

/-- Length of month `m` (1..12) of year `y`, as used by `datetime`. -/
def daysInMonth (y m : Nat) : Nat :=
  if m = 2 then (if isLeap y then 29 else 28)
  else if m = 4 ∨ m = 6 ∨ m = 9 ∨ m = 11 then 30
  else 31

/-- A calendar date, the model of `datetime.date` (year ≥ 1 for valid dates). -/
structure Date where
  year : Nat
  month : Nat
  day : Nat
  deriving DecidableEq, Repr

/-- The dates representable as `datetime.date(year, month, day)`. -/
def dateValid (d : Date) : Prop :=
  1 ≤ d.year ∧ 1 ≤ d.month ∧ d.month ≤ 12 ∧ 1 ≤ d.day ∧ d.day ≤ daysInMonth d.year d.month

instance (d : Date) : Decidable (dateValid d) := by
  unfold dateValid; infer_instance

/-- Cumulative days before month `m` in a non-leap year. -/
def monthOff (m : Nat) : Nat :=
  match m with
  | 1 => 0 | 2 => 31 | 3 => 59 | 4 => 90 | 5 => 120 | 6 => 151
  | 7 => 181 | 8 => 212 | 9 => 243 | 10 => 273 | 11 => 304 | 12 => 334
  | _ => 0

/-- Days of year `y` that precede month `m`. -/
def daysBeforeMonth (y m : Nat) : Nat :=
  monthOff m + (if 3 ≤ m ∧ isLeap y then 1 else 0)

/-- The proleptic-Gregorian ordinal of a date: `datetime.date.toordinal()`
(0001-01-01 has ordinal 1). -/
def rataDie (d : Date) : Nat :=
  365 * (d.year - 1) + (d.year - 1) / 4 + (d.year - 1) / 400
    + daysBeforeMonth d.year d.month + d.day - (d.year - 1) / 100

/-- `date.weekday()`: Monday = 0, ..., Sunday = 6. -/
def pyWeekday (d : Date) : Nat :=
  (rataDie d + 6) % 7

/-- Lexicographic comparison of dates, the model of `date <` in Python. -/
def dateLt (a b : Date) : Prop :=
  a.year < b.year ∨ (a.year = b.year ∧
    (a.month < b.month ∨ (a.month = b.month ∧ a.day < b.day)))

instance (a b : Date) : Decidable (dateLt a b) := by
  unfold dateLt; infer_instance

/-- The calendar successor of a date: `d + timedelta(days=1)` for valid `d`. -/
def nextDay (d : Date) : Date :=
  if d.day < daysInMonth d.year d.month then ⟨d.year, d.month, d.day + 1⟩
  else if d.month < 12 then ⟨d.year, d.month + 1, 1⟩
  else ⟨d.year + 1, 1, 1⟩

/-- `(a - b).days` of Python date subtraction. -/
def daysUntil (today occ : Date) : Int :=
  (rataDie occ : Int) - (rataDie today : Int)

theorem isLeap_iff (y : Nat) :
    isLeap y = true ↔ (y % 4 = 0 ∧ (y % 100 ≠ 0 ∨ y % 400 = 0)) := by
  simp [isLeap]

theorem daysInMonth_le_31 (y m : Nat) : daysInMonth y m ≤ 31 := by
  unfold daysInMonth
  split
  · split <;> omega
  · split <;> omega

theorem daysInMonth_pos (y m : Nat) : 1 ≤ daysInMonth y m := by
  unfold daysInMonth
  split
  · split <;> omega
  · split <;> omega

theorem daysBeforeMonth_succ (y m : Nat) (h1 : 1 ≤ m) (h2 : m ≤ 11) :
    daysBeforeMonth y (m + 1) = daysBeforeMonth y m + daysInMonth y m := by
  cases hL : isLeap y <;>
    interval_cases m <;>
      simp [daysBeforeMonth, monthOff, daysInMonth, hL]

theorem nextDay_valid (d : Date) (h : dateValid d) : dateValid (nextDay d) := by
  obtain ⟨y, m, day⟩ := d
  obtain ⟨hy, hm1, hm2, hd1, hd2⟩ := h
  have h12 : 1 ≤ daysInMonth y (m + 1) := daysInMonth_pos y (m + 1)
  have h13 : 1 ≤ daysInMonth (y + 1) 1 := daysInMonth_pos (y + 1) 1
  dsimp only at *
  unfold nextDay dateValid
  dsimp only
  split
  · dsimp only
    omega
  · split <;> dsimp only <;> omega

set_option maxHeartbeats 1000000 in
theorem rataDie_nextDay (d : Date) (h : dateValid d) :
    rataDie (nextDay d) = rataDie d + 1 := by
  obtain ⟨y, m, day⟩ := d
  obtain ⟨hy, hm1, hm2, hd1, hd2⟩ := h
  dsimp only at *
  unfold nextDay
  dsimp only
  split
  · unfold rataDie
    dsimp only
    omega
  · rename_i hdim
    split
    · rename_i hm12
      have hsucc := daysBeforeMonth_succ y m hm1 (by omega)
      unfold rataDie
      dsimp only
      omega
    · rename_i hm12
      have hm : m = 12 := by omega
      subst hm
      have hday : day = 31 := by
        have : daysInMonth y 12 = 31 := by norm_num [daysInMonth]
        omega
      subst hday
      have hb1 : daysBeforeMonth (y + 1) 1 = 0 := by
        norm_num [daysBeforeMonth, monthOff]
      unfold rataDie
      dsimp only
      rw [hb1]
      by_cases hL : isLeap y = true
      · have hb12 : daysBeforeMonth y 12 = 335 := by
          norm_num [daysBeforeMonth, monthOff, hL]
        rw [hb12]
        have := (isLeap_iff y).mp hL
        omega
      · have hLf : isLeap y = false := by
          revert hL; cases isLeap y <;> simp
        have hb12 : daysBeforeMonth y 12 = 334 := by
          norm_num [daysBeforeMonth, monthOff, hLf]
        rw [hb12]
        rw [isLeap_iff] at hL
        omega

/-! ## Strings: Python helpers used by the validators and renderers -/

/-- Characters removed by Python `str.strip()` (ASCII fragment). -/
def isPySpace (c : Char) : Bool :=
  c = ' ' || c = '\t' || c = '\n' || c = '\r' || c = '\x0b' || c = '\x0c'

/-- `str.strip()` on a character list. -/
def pyStripL (l : List Char) : List Char :=
  ((l.dropWhile isPySpace).reverse.dropWhile isPySpace).reverse

/-- `str.strip()`. -/
def pyStrip (s : String) : String :=
  String.mk (pyStripL s.data)

/-- ASCII decimal digit test ('0'..'9'). -/
def isAsciiDigit (c : Char) : Bool :=
  48 ≤ c.toNat && c.toNat ≤ 57

/-- `str.isdigit()` (false on the empty string), restricted to ASCII input. -/
def pyIsdigit (s : String) : Bool :=
  !s.data.isEmpty && s.data.all isAsciiDigit

/-- Numeric value of an ASCII digit character. -/
def digitVal (c : Char) : Nat :=
  c.toNat - 48

/-- Value of a decimal digit string. -/
def digitsToNat (l : List Char) : Nat :=
  l.foldl (fun a c => 10 * a + digitVal c) 0

/-- Two zero-padded decimal digits, as produced by `strftime` `%d` / `%m`. -/
def pad2 (n : Nat) : List Char :=
  [Char.ofNat (48 + n / 10 % 10), Char.ofNat (48 + n % 10)]

/-- Four zero-padded decimal digits, as produced by `strftime` `%Y`
for the four-digit years this program handles. -/
def pad4 (n : Nat) : List Char :=
  [Char.ofNat (48 + n / 1000 % 10), Char.ofNat (48 + n / 100 % 10),
   Char.ofNat (48 + n / 10 % 10), Char.ofNat (48 + n % 10)]

/-- `date.strftime("%d.%m.%Y")`. -/
def strftimeDMY (d : Date) : String :=
  String.mk (pad2 d.day ++ '.' :: pad2 d.month ++ '.' :: pad4 d.year)

/-- Split a character list at every dot, as `strptime` does when matching
the two literal dots of the pattern "%d.%m.%Y". -/
def splitDots : List Char → List (List Char)
  | [] => [[]]
  | c :: rest =>
    let ps := splitDots rest
    if c = '.' then [] :: ps
    else
      match ps with
      | [] => [[c]]
      | p :: tl => (c :: p) :: tl

/-- `datetime.strptime(s, "%d.%m.%Y")`, returning the parsed calendar date:
day and month match one or two digits, the year exactly four digits, and the
resulting triple must be constructible as a `datetime.date` (year ≥ 1, day
within the month); every failure raises `ValueError` (here: `none`). -/
def parseDMY (l : List Char) : Option Date :=
  match splitDots l with
  | [ds, ms, ys] =>
    if ds ≠ [] ∧ ds.length ≤ 2 ∧ ds.all isAsciiDigit
        ∧ ms ≠ [] ∧ ms.length ≤ 2 ∧ ms.all isAsciiDigit
        ∧ ys.length = 4 ∧ ys.all isAsciiDigit then
      let dt : Date := ⟨digitsToNat ys, digitsToNat ms, digitsToNat ds⟩
      if dateValid dt then some dt else none
    else none
  | _ => none

/-- `str.title()` on a character list: the flag records whether the previous
character was alphabetic. -/
def pyTitleL : List Char → Bool → List Char
  | [], _ => []
  | c :: rest, prevAlpha =>
    (if c.isAlpha then (if prevAlpha then c.toLower else c.toUpper) else c)
      :: pyTitleL rest c.isAlpha

/-- `str.title()`, the display form produced by `Name.__str__`. -/
def pyTitle (s : String) : String :=
  String.mk (pyTitleL s.data false)

/-- Occurrence test for a pattern as a contiguous substring. -/
def startsWithL : List Char → List Char → Bool
  | [], _ => true
  | _ :: _, [] => false
  | a :: as, b :: bs => a = b && startsWithL as bs

/-- `pat in s` on character lists. -/
def hasSub (pat : List Char) : List Char → Bool
  | [] => startsWithL pat []
  | c :: rest => startsWithL pat (c :: rest) || hasSub pat rest

/-! ## Exceptions and validated fields -/

/-- The exceptions distinguished by the `input_error` decorator. -/
inductive PyErr where
  | valueError (msg : String)
  | keyError
  | indexError
  | other (msg : String)
  deriving DecidableEq, Repr

/-- `Phone.__init__`: strip the input; accept iff the result is exactly 10
digits, storing the stripped value; otherwise raise
`ValueError("Incorrect phone number format.")`. -/
def Phone.init (value : String) : Except PyErr String :=
  let v := pyStrip value
  if v.length = 10 ∧ pyIsdigit v then .ok v
  else .error (.valueError "Incorrect phone number format.")

/-- The argument of `Birthday.__init__`: either an already-parsed
`datetime` or text. -/
inductive BInput where
  | dt (d : Date)
  | str (s : String)

/-- `Birthday.__init__`: a `datetime` is stored as-is; text is stripped,
an empty result or any `strptime` failure raises
`ValueError("Invalid date format. Use DD.MM.YYYY")`, otherwise the parsed
date is stored (the stored midnight timestamp is modelled by its date). -/
def Birthday.init (value : BInput) : Except PyErr Date :=
  match value with
  | .dt d => .ok d
  | .str v =>
    let s := pyStrip v
    if s.data = [] then .error (.valueError "Invalid date format. Use DD.MM.YYYY")
    else
      match parseDMY s.data with
      | some d => .ok d
      | none => .error (.valueError "Invalid date format. Use DD.MM.YYYY")

/-! ## Records and the ledger -/

/-- `Record`: raw name (as stored by `Name`), ordered phone values
(each the stored value of a validated `Phone`), optional birthday. -/
structure Rec where
  name : String
  phones : List String
  birthday : Option Date
  deriving DecidableEq, Repr

/-- `Record(name)`. -/
def Rec.new (name : String) : Rec :=
  ⟨name, [], none⟩

/-- `Record.add_phone`: validate, then append. -/
def Rec.addPhone (r : Rec) (phone : String) : Except PyErr Rec :=
  match Phone.init phone with
  | .error e => .error e
  | .ok v => .ok { r with phones := r.phones ++ [v] }

/-- The loop of `Record.edit_phone` over the phone list: at the first match
the replacement `Phone(new_phone)` is constructed (which may raise) and only
then written; the pair returns the loop result together with the list as the
in-place mutation leaves it. -/
def editPhoneL (oldP newP : String) : List String → Except PyErr Unit × List String
  | [] => (.ok (), [])
  | p :: rest =>
    if p = oldP then
      match Phone.init newP with
      | .error e => (.error e, p :: rest)
      | .ok np => (.ok (), np :: rest)
    else
      let (res, rest2) := editPhoneL oldP newP rest
      (res, p :: rest2)

/-- `Record.edit_phone`. -/
def Rec.editPhone (r : Rec) (oldP newP : String) : Except PyErr Unit × Rec :=
  let (res, ph) := editPhoneL oldP newP r.phones
  (res, { r with phones := ph })

/-- `Record.find_phone`: first phone with exact value match. -/
def Rec.findPhone (r : Rec) (p : String) : Option String :=
  r.phones.find? (fun q => q == p)

/-- `Record.add_birthday`: validate, then set/overwrite. -/
def Rec.addBirthday (r : Rec) (birthday : String) : Except PyErr Rec :=
  match Birthday.init (.str birthday) with
  | .error e => .error e
  | .ok d => .ok { r with birthday := some d }

/-- `Record.__str__`: note that it interpolates `self.name.value` (the raw
name), not `str(self.name)` (which would title-case). -/
def renderRec (r : Rec) : String :=
  let birthdayStr := match r.birthday with
    | some d => ", birthday: " ++ strftimeDMY d
    | none => ""
  "Contact name: " ++ r.name ++ ", phones: "
    ++ String.intercalate "; " r.phones ++ birthdayStr

/-- The `AddressBook` data: an insertion-ordered mapping, modelled as an
association list with the update behaviour of a Python `dict`. -/
abbrev Book := List (String × Rec)

/-- `dict` assignment `data[k] = r`: replace in place if the key exists,
else append. -/
def dictSet (book : Book) (k : String) (r : Rec) : Book :=
  if book.any (fun kv => kv.1 == k) then
    book.map (fun kv => if kv.1 = k then (k, r) else kv)
  else book ++ [(k, r)]

/-- `AddressBook.add_record`: keyed by the record's raw name value. -/
def addRecord (book : Book) (r : Rec) : Book :=
  dictSet book r.name r

/-- `AddressBook.find`: `dict.get`, never fails. -/
def bookFind (book : Book) (k : String) : Option Rec :=
  (List.find? (fun kv => kv.1 == k) book).map (fun kv => kv.2)

/-- `AddressBook.delete`: `del data[name]`, raising `KeyError` if absent. -/
def bookDelete (book : Book) (k : String) : Except PyErr Book :=
  if book.any (fun kv => kv.1 == k) then
    .ok (book.eraseP (fun kv => kv.1 == k))
  else .error .keyError

/-! ## The upcoming-birthday scheduling query -/

/-- `date.replace(year=y)`: keep month and day; `datetime` raises
`ValueError("day is out of range for month")` when the day does not exist
in the target year (Feb 29 to a non-leap year). -/
def replaceYear (d : Date) (y : Nat) : Except PyErr Date :=
  if d.day ≤ daysInMonth y d.month then .ok ⟨y, d.month, d.day⟩
  else .error (.valueError "day is out of range for month")

/-- Steps 1-2 of the scheduling loop body: this year's occurrence of the
birthday, rolled to next year when it is strictly before today. -/
def occurrenceDate (today b : Date) : Except PyErr Date :=
  match replaceYear b today.year with
  | .error e => .error e
  | .ok bty =>
    if dateLt bty today then replaceYear bty (today.year + 1)
    else .ok bty

/-- The weekend shift: Saturday (weekday 5) moves 2 days, Sunday (weekday 6)
moves 1 day, both to the following Monday; other days are unchanged. -/
def congratulation (occ : Date) : Date :=
  if pyWeekday occ = 5 then nextDay (nextDay occ)
  else if pyWeekday occ = 6 then nextDay occ
  else occ

/-- One iteration of the `get_upcoming_birthdays` loop: skip a record
without a birthday, compute the occurrence, keep the record iff
`0 <= days_until <= 6`, and emit the raw name with the formatted
congratulation date. -/
def processRecord (today : Date) (r : Rec) : Except PyErr (Option (String × String)) :=
  match r.birthday with
  | none => .ok none
  | some b =>
    match occurrenceDate today b with
    | .error e => .error e
    | .ok occ =>
      if 0 ≤ daysUntil today occ ∧ daysUntil today occ ≤ 6 then
        .ok (some (r.name, strftimeDMY (congratulation occ)))
      else .ok none

/-- The loop of `get_upcoming_birthdays` over the ledger's records, in
order, appending one emitted pair per included record; the first exception
aborts the whole call. -/
def collectUpcoming (today : Date) : List Rec → Except PyErr (List (String × String))
  | [] => .ok []
  | r :: rs =>
    match processRecord today r with
    | .error e => .error e
    | .ok none => collectUpcoming today rs
    | .ok (some entry) =>
      match collectUpcoming today rs with
      | .error e => .error e
      | .ok out => .ok (entry :: out)

/-- `AddressBook.get_upcoming_birthdays`, with the reference date made
explicit (production code uses `datetime.today().date()`). -/
def getUpcomingBirthdays (today : Date) (book : Book) : Except PyErr (List (String × String)) :=
  collectUpcoming today (book.map (fun kv => kv.2))

/-! ## Command handlers and the error-translating decorator -/

/-- The body of the `input_error` decorator's `inner`: `ValueError` is shown
as its own text, `KeyError` and `IndexError` as fixed messages, any other
exception as a generic failure line. -/
def inputError (res : Except PyErr String) : String :=
  match res with
  | .ok s => s
  | .error (.valueError m) => m
  | .error .keyError => "Contact not found."
  | .error .indexError => "Invalid command format. Please provide all required arguments."
  | .error (.other m) => "An error occurred: " ++ m

/-- A handler before decoration: it may finish with an exception, and the
ledger state it leaves behind is returned in both cases (Python mutates the
book and its records in place). -/
abbrev Handler := List String → Book → Except PyErr String × Book

/-- Write a mutated record back at its key (the model of Python's in-place
mutation of the record object aliased by the dict). -/
def bookUpdate (book : Book) (k : String) (r : Rec) : Book :=
  book.map (fun kv => if kv.1 = k then (k, r) else kv)

/-- `add_contact` before decoration. `name, phone, *_ = args` needs at
least two values and raises `ValueError` otherwise - there is no explicit
argument-count check. A missing record is created and inserted first; a
non-empty phone is then validated and appended (an invalid phone therefore
raises after the record was already inserted). -/
def addContact : Handler := fun args book =>
  match args with
  | name :: phone :: _ =>
    let found := bookFind book name
    let r := match found with
      | some r0 => r0
      | none => Rec.new name
    let message := match found with
      | some _ => "Contact updated."
      | none => "Contact added."
    let book1 := match found with
      | some _ => book
      | none => addRecord book (Rec.new name)
    if phone ≠ "" then
      match Phone.init phone with
      | .error e => (.error e, book1)
      | .ok v => (.ok message, bookUpdate book1 name { r with phones := r.phones ++ [v] })
    else (.ok message, book1)
  | _ =>
    (.error (.valueError ("not enough values to unpack (expected at least 2, got "
      ++ toString args.length ++ ")")), book)

/-- `change_contact` before decoration: explicit argument-count check,
then find the contact, check the old phone exists, and only then edit. -/
def changeContact : Handler := fun args book =>
  match args with
  | name :: oldPhone :: newPhone :: _ =>
    match bookFind book name with
    | none => (.ok "Contact not found.", book)
    | some r =>
      match r.findPhone oldPhone with
      | none => (.ok ("Phone " ++ oldPhone ++ " not found for contact " ++ name ++ "."), book)
      | some _ =>
        let (res, r2) := r.editPhone oldPhone newPhone
        match res with
        | .error e => (.error e, bookUpdate book name r2)
        | .ok _ => (.ok "Phone number updated.", bookUpdate book name r2)
  | _ => (.ok "Please provide name, old phone, and new phone.", book)

/-- `show_phone` before decoration. -/
def showPhone : Handler := fun args book =>
  match args with
  | name :: _ =>
    match bookFind book name with
    | none => (.ok "Contact not found.", book)
    | some r =>
      if r.phones = [] then (.ok (name ++ " has no phone numbers."), book)
      else (.ok (name ++ ": " ++ String.intercalate "; " r.phones), book)
  | [] => (.ok "Please provide a name.", book)

/-- `add_birthday` before decoration. -/
def addBirthday : Handler := fun args book =>
  match args with
  | name :: birthday :: _ =>
    match bookFind book name with
    | none => (.ok "Contact not found.", book)
    | some r =>
      match r.addBirthday birthday with
      | .error e => (.error e, book)
      | .ok r2 => (.ok ("Birthday added for " ++ name ++ "."), bookUpdate book name r2)
  | _ => (.ok "Please provide name and birthday (DD.MM.YYYY).", book)

/-- `show_birthday` before decoration. -/
def showBirthday : Handler := fun args book =>
  match args with
  | name :: _ =>
    match bookFind book name with
    | none => (.ok "Contact not found.", book)
    | some r =>
      match r.birthday with
      | none => (.ok (name ++ " has no birthday set."), book)
      | some d => (.ok (name ++ "'s birthday: " ++ strftimeDMY d), book)
  | [] => (.ok "Please provide a name.", book)

/-- The `@input_error` decoration: every exception becomes a display
string, so a decorated handler always returns text. -/
def decorated (h : Handler) (args : List String) (book : Book) : String × Book :=
  let (res, book2) := h args book
  (inputError res, book2)

/-! ## The ledger key invariant -/

/-- Every key of the ledger equals its record's raw name value. -/
def bookInv (book : Book) : Prop :=
  ∀ kv ∈ book, kv.1 = kv.2.name

/-- The ledgers reachable from the empty one through the ledger's own
mutating operations (`add_record` and a successful `delete`; `find` and
`get_upcoming_birthdays` are queries and return no ledger). -/
inductive Reaches : Book → Prop where
  | empty : Reaches []
  | add (b : Book) (r : Rec) : Reaches b → Reaches (addRecord b r)
  | del (b : Book) (k : String) (b2 : Book) :
      Reaches b → bookDelete b k = .ok b2 → Reaches b2

/-! ## Helper lemmas -/

theorem pyIsdigit_iff (s : String) :
    pyIsdigit s = true ↔ (s.data ≠ [] ∧ ∀ c ∈ s.data, isAsciiDigit c = true) := by
  simp [pyIsdigit, List.all_eq_true, List.isEmpty_iff]

theorem editPhoneL_error (oldP newP : String) (l : List String) (e : PyErr)
    (hmem : oldP ∈ l) (herr : Phone.init newP = .error e) :
    editPhoneL oldP newP l = (.error e, l) := by
  induction l with
  | nil => cases hmem
  | cons p rest ih =>
    by_cases hp : p = oldP
    · simp [editPhoneL, hp, herr]
    · have hmem2 : oldP ∈ rest := by
        rcases List.mem_cons.mp hmem with h | h
        · exact absurd h.symm hp
        · exact h
      simp [editPhoneL, hp, ih hmem2]

theorem find?_map_replace (book : Book) (k : String) (r : Rec)
    (hany : book.any (fun kv => kv.1 == k) = true) :
    List.find? (fun kv => kv.1 == k)
      (book.map (fun kv => if kv.1 = k then (k, r) else kv)) = some (k, r) := by
  induction book with
  | nil => simp at hany
  | cons kv rest ih =>
    by_cases hk : kv.1 = k
    · simp [hk]
    · have h2 : rest.any (fun kv => kv.1 == k) = true := by
        cases ha : (kv.1 == k) with
        | true => exact absurd (beq_iff_eq.mp ha) hk
        | false =>
          rw [List.any_cons, ha, Bool.false_or] at hany
          exact hany
      simp [hk, List.find?_cons, ih h2]

theorem find?_append_last (book : Book) (k : String) (r : Rec)
    (hany : book.any (fun kv => kv.1 == k) = false) :
    List.find? (fun kv => kv.1 == k) (book ++ [(k, r)]) = some (k, r) := by
  induction book with
  | nil => simp
  | cons kv rest ih =>
    simp only [List.any_cons, Bool.or_eq_false_iff] at hany
    simp [List.find?_cons, hany.1, ih hany.2]

theorem bookFind_addRecord_self (book : Book) (r : Rec) :
    bookFind (addRecord book r) r.name = some r := by
  unfold addRecord dictSet bookFind
  by_cases hany : book.any (fun kv => kv.1 == r.name) = true
  · rw [if_pos hany, find?_map_replace book r.name r hany]
    rfl
  · rw [if_neg hany,
      find?_append_last book r.name r (by revert hany; cases book.any (fun kv => kv.1 == r.name) <;> simp)]
    rfl

theorem bookInv_addRecord (book : Book) (r : Rec) (h : bookInv book) :
    bookInv (addRecord book r) := by
  unfold addRecord dictSet
  split
  · intro kv hkv
    rcases List.mem_map.mp hkv with ⟨kv0, hkv0, heq⟩
    by_cases hk : kv0.1 = r.name
    · rw [if_pos hk] at heq
      rw [← heq]
    · rw [if_neg hk] at heq
      rw [← heq]
      exact h kv0 hkv0
  · intro kv hkv
    rcases List.mem_append.mp hkv with h1 | h1
    · exact h kv h1
    · rcases List.mem_singleton.mp h1 with rfl
      rfl

theorem bookInv_delete (book : Book) (k : String) (b2 : Book)
    (hdel : bookDelete book k = .ok b2) (h : bookInv book) : bookInv b2 := by
  unfold bookDelete at hdel
  split at hdel
  · cases hdel
    intro kv hkv
    exact h kv ((List.eraseP_sublist book).subset hkv)
  · cases hdel

/-! ## Claim theorems -/

/-- C4. `PhoneNumber` construction succeeds iff the whitespace-trimmed input
is exactly 10 ASCII digits; on success the stored value is the trimmed
string, and every failure carries
`ValidationError("Incorrect phone number format.")`. -/
theorem phone_validation (s : String) :
    ((∃ v, Phone.init s = .ok v) ↔
      ((pyStrip s).length = 10 ∧ ∀ c ∈ (pyStrip s).data, isAsciiDigit c = true)) ∧
    (∀ v, Phone.init s = .ok v → v = pyStrip s) ∧
    (∀ e, Phone.init s = .error e →
      e = .valueError "Incorrect phone number format.") := by
  have hlen : (pyStrip s).length = (pyStrip s).data.length := rfl
  by_cases hc : (pyStrip s).length = 10 ∧ pyIsdigit (pyStrip s) = true
  · have hok : Phone.init s = .ok (pyStrip s) := by
      unfold Phone.init
      exact if_pos hc
    refine ⟨⟨fun _ => ⟨hc.1, ((pyIsdigit_iff (pyStrip s)).mp hc.2).2⟩,
        fun _ => ⟨pyStrip s, hok⟩⟩, fun v hv => ?_, fun e he => ?_⟩
    · rw [hok] at hv
      cases hv
      rfl
    · rw [hok] at he
      cases he
  · have herr : Phone.init s = .error (.valueError "Incorrect phone number format.") := by
      unfold Phone.init
      exact if_neg hc
    refine ⟨⟨fun hex => ?_, fun hgood => ?_⟩, fun v hv => ?_, fun e he => ?_⟩
    · obtain ⟨v, hv⟩ := hex
      rw [herr] at hv
      cases hv
    · refine absurd ⟨hgood.1, (pyIsdigit_iff (pyStrip s)).mpr ⟨?_, hgood.2⟩⟩ hc
      intro hemp
      rw [hemp] at hlen
      simp at hlen
      omega
    · rw [herr] at hv
      cases hv
    · rw [herr] at he
      cases he
      rfl

/-- Witness for C4 at the input `" 0123456789 "` (accepted, stored
stripped). -/
theorem phone_validation_witness :
    (∃ v, Phone.init " 0123456789 " = .ok v) ∧
    ∀ v, Phone.init " 0123456789 " = .ok v → v = pyStrip " 0123456789 " := by
  exact ⟨(phone_validation " 0123456789 ").1.mpr (by decide),
    (phone_validation " 0123456789 ").2.1⟩

/-- C10. If the old phone occurs in the list and the replacement fails
validation, `edit_phone` ends in that `ValidationError` with the phone
sequence exactly as before (the replacement is validated before it is
written). -/
theorem edit_phone_atomic (r : Rec) (oldP newP : String) (e : PyErr)
    (hmem : oldP ∈ r.phones) (herr : Phone.init newP = .error e) :
    r.editPhone oldP newP = (.error e, r) := by
  unfold Rec.editPhone
  rw [editPhoneL_error oldP newP r.phones e hmem herr]

/-- Witness for C10: replacing `"0123456789"` by the invalid `"12"`. -/
theorem edit_phone_atomic_witness :
    Rec.editPhone ⟨"kim", ["0123456789"], none⟩ "0123456789" "12"
      = (.error (.valueError "Incorrect phone number format."),
         ⟨"kim", ["0123456789"], none⟩) := by
  exact edit_phone_atomic _ _ _ _ (by simp) (by rfl)

/-- C9. `change_contact` on an existing contact whose record holds no phone
equal to `old` returns the "not found for contact" message and leaves the
ledger (hence the record's phone sequence) exactly unchanged. -/
theorem change_missing_phone (book : Book) (n oldP newP : String) (r : Rec)
    (hfind : bookFind book n = some r) (hph : r.findPhone oldP = none) :
    decorated changeContact [n, oldP, newP] book
      = ("Phone " ++ oldP ++ " not found for contact " ++ n ++ ".", book) := by
  simp only [decorated, changeContact, hfind, hph, inputError]

/-- Witness for C9 on a one-record ledger. -/
theorem change_missing_phone_witness :
    decorated changeContact ["kim", "9999999999", "1112223334"]
        [("kim", ⟨"kim", ["0123456789"], none⟩)]
      = ("Phone 9999999999 not found for contact kim.",
         [("kim", ⟨"kim", ["0123456789"], none⟩)]) := by
  exact change_missing_phone _ _ _ _ ⟨"kim", ["0123456789"], none⟩ (by rfl) (by rfl)

/-- C5. Every ledger reachable from the empty one through the mutating
ledger operations satisfies the key invariant (each key equals its record's
raw name); `find` and `get_upcoming_birthdays` are queries and return no
ledger. Moreover `find` after `add_record(r)` at `r`'s raw name returns
exactly `r`. -/
theorem ledger_key_invariant :
    (∀ book : Book, Reaches book → bookInv book) ∧
    (∀ (book : Book) (r : Rec), bookFind (addRecord book r) r.name = some r) := by
  constructor
  · intro book h
    induction h with
    | empty => intro kv hkv; cases hkv
    | add b r _ ih => exact bookInv_addRecord b r ih
    | del b k b2 _ hdel ih => exact bookInv_delete b k b2 hdel ih
  · exact fun book r => bookFind_addRecord_self book r

/-- Witness for C5: one `add_record` step from the empty ledger. -/
theorem ledger_key_invariant_witness :
    bookInv (addRecord [] (Rec.new "kim")) ∧
    bookFind (addRecord [] (Rec.new "kim")) "kim" = some (Rec.new "kim") := by
  exact ⟨ledger_key_invariant.1 _ (Reaches.add [] _ Reaches.empty),
    ledger_key_invariant.2 [] (Rec.new "kim")⟩

theorem startsWithL_self_append (pat rest : List Char) :
    startsWithL pat (pat ++ rest) = true := by
  induction pat with
  | nil => rfl
  | cons c tl ih => simp [startsWithL, ih]

theorem hasSub_self_append (pat rest : List Char) :
    hasSub pat (pat ++ rest) = true := by
  cases pat with
  | nil =>
    cases rest with
    | nil => rfl
    | cons c tl => simp [hasSub, startsWithL]
  | cons c tl =>
    have h := startsWithL_self_append (c :: tl) rest
    rw [List.cons_append] at h
    simp [hasSub, h]

theorem hasSub_cons (pat : List Char) (c : Char) (l : List Char)
    (h : hasSub pat l = true) : hasSub pat (c :: l) = true := by
  simp [hasSub, h]

theorem hasSub_append_left (pat pre rest : List Char) :
    hasSub pat (pre ++ pat ++ rest) = true := by
  induction pre with
  | nil => simpa using hasSub_self_append pat rest
  | cons c tl ih => simpa using hasSub_cons _ c _ (by simpa using ih)

theorem String.data_append_eq (a b : String) : (a ++ b).data = a.data ++ b.data := rfl

/-- C8 counterexample: `Record.__str__` interpolates `self.name.value`, the
raw stored name, so the rendered line of a record named "bob smith" contains
"bob smith" and not its title-cased form "Bob Smith" (produced by
`Name.__str__`, which the record renderer does not call). -/
theorem record_render_counterexample :
    renderRec ⟨"bob smith", ["1234567890"], none⟩
      = "Contact name: bob smith, phones: 1234567890" ∧
    pyTitle "bob smith" = "Bob Smith" ∧
    hasSub (pyTitle "bob smith").data
      (renderRec ⟨"bob smith", ["1234567890"], none⟩).data = false := by
  exact ⟨rfl, rfl, by decide⟩

/-- C8 as amended: rendering a record produces one line holding the RAW
name value (not title-cased — the raw name always occurs as a substring),
the semicolon-joined phone values, and the `, birthday: DD.MM.YYYY` suffix
exactly when a birthday is set. -/
theorem record_render (r : Rec) :
    (r.birthday = none → renderRec r =
      "Contact name: " ++ r.name ++ ", phones: " ++ String.intercalate "; " r.phones) ∧
    (∀ d, r.birthday = some d → renderRec r =
      "Contact name: " ++ r.name ++ ", phones: " ++ String.intercalate "; " r.phones
        ++ ", birthday: " ++ strftimeDMY d) ∧
    hasSub r.name.data (renderRec r).data = true := by
  refine ⟨fun hb => ?_, fun d hb => ?_, ?_⟩
  · simp [renderRec, hb]
  · simp [renderRec, hb, String.append_assoc]
  · have key : ∀ tail : String, hasSub r.name.data
        (("Contact name: " ++ r.name ++ tail).data) = true := by
      intro tail
      rw [String.data_append_eq, String.data_append_eq]
      rw [List.append_assoc]
      exact hasSub_append_left r.name.data ("Contact name: ").data tail.data
    cases hb : r.birthday with
    | none =>
      have h1 : renderRec r = "Contact name: " ++ r.name
          ++ (", phones: " ++ String.intercalate "; " r.phones) := by
        simp [renderRec, hb, String.append_assoc]
      rw [h1]
      exact key _
    | some d =>
      have h1 : renderRec r = "Contact name: " ++ r.name
          ++ (", phones: " ++ String.intercalate "; " r.phones
              ++ (", birthday: " ++ strftimeDMY d)) := by
        simp [renderRec, hb, String.append_assoc]
      rw [h1]
      exact key _

/-- Witness for C8 (amended) on a record with a birthday. -/
theorem record_render_witness :
    renderRec ⟨"ann lee", ["0123456789", "5556667778"], some ⟨1990, 3, 15⟩⟩
      = "Contact name: " ++ "ann lee" ++ ", phones: "
        ++ String.intercalate "; " ["0123456789", "5556667778"]
        ++ ", birthday: " ++ strftimeDMY ⟨1990, 3, 15⟩ := by
  exact (record_render ⟨"ann lee", ["0123456789", "5556667778"],
    some ⟨1990, 3, 15⟩⟩).2.1 ⟨1990, 3, 15⟩ rfl

/-- C7 counterexample: `add_contact` performs no argument-count check
before `name, phone, *_ = args` — with one argument the destructuring
itself raises `ValueError` inside the handler body, and the decorator then
surfaces the Python unpack text, not one of the crafted guidance
messages. -/
theorem add_contact_unpack_counterexample :
    (addContact ["alice"] []).1
      = .error (.valueError "not enough values to unpack (expected at least 2, got 1)") ∧
    (decorated addContact ["alice"] []).1
      = "not enough values to unpack (expected at least 2, got 1)" := by
  exact ⟨rfl, rfl⟩

/-- C7 as amended: with fewer positional arguments than required no
handler ever lets a fault escape the decorator. `change_contact`,
`show_phone`, `add_birthday` and `show_birthday` check the count before
destructuring and return their guidance messages; `add_contact` does not —
its destructuring raises `ValueError` and the decorator converts it to the
unpack message text. -/
theorem handler_arg_guards (args : List String) (book : Book) :
    (args.length < 3 → decorated changeContact args book
      = ("Please provide name, old phone, and new phone.", book)) ∧
    (args.length < 1 → decorated showPhone args book
      = ("Please provide a name.", book)) ∧
    (args.length < 2 → decorated addBirthday args book
      = ("Please provide name and birthday (DD.MM.YYYY).", book)) ∧
    (args.length < 1 → decorated showBirthday args book
      = ("Please provide a name.", book)) ∧
    (args.length < 2 → decorated addContact args book
      = ("not enough values to unpack (expected at least 2, got "
          ++ toString args.length ++ ")", book)) := by
  rcases args with _ | ⟨a, _ | ⟨b, _ | ⟨c, rest⟩⟩⟩ <;>
    refine ⟨fun h => ?_, fun h => ?_, fun h => ?_, fun h => ?_, fun h => ?_⟩ <;>
      first
        | rfl
        | (exfalso; simp only [List.length_cons, List.length_nil] at h; omega)

/-- Witness for C7 (amended): the four checking handlers and `add_contact`
at concrete short argument lists. -/
theorem handler_arg_guards_witness :
    decorated changeContact ["x"] [] = ("Please provide name, old phone, and new phone.", []) ∧
    decorated showPhone [] [] = ("Please provide a name.", []) ∧
    decorated addBirthday ["x"] [] = ("Please provide name and birthday (DD.MM.YYYY).", []) ∧
    decorated showBirthday [] [] = ("Please provide a name.", []) ∧
    decorated addContact ["x"] []
      = ("not enough values to unpack (expected at least 2, got 1)", []) := by
  refine ⟨(handler_arg_guards ["x"] []).1 (by simp),
    (handler_arg_guards [] []).2.1 (by simp),
    (handler_arg_guards ["x"] []).2.2.1 (by simp),
    (handler_arg_guards [] []).2.2.2.1 (by simp),
    ?_⟩
  rw [(handler_arg_guards ["x"] []).2.2.2.2 (by simp)]
  rfl

theorem replaceYear_ok (b : Date) (y : Nat) (bty : Date)
    (h : replaceYear b y = .ok bty) : bty = ⟨y, b.month, b.day⟩ := by
  unfold replaceYear at h
  split at h
  · cases h
    rfl
  · cases h

theorem replaceYear_valid (b : Date) (y : Nat) (bty : Date)
    (hv : dateValid b) (hy : 1 ≤ y) (h : replaceYear b y = .ok bty) :
    dateValid bty := by
  obtain ⟨h1, h2, h3, h4, h5⟩ := hv
  unfold replaceYear at h
  split at h
  · cases h
    exact ⟨hy, h2, h3, h4, by assumption⟩
  · cases h

theorem occurrenceDate_valid (today b occ : Date)
    (hv : dateValid b) (hy : 1 ≤ today.year)
    (h : occurrenceDate today b = .ok occ) : dateValid occ := by
  unfold occurrenceDate at h
  cases h1 : replaceYear b today.year with
  | error e => rw [h1] at h; cases h
  | ok bty =>
    rw [h1] at h
    have hbty : dateValid bty := replaceYear_valid b today.year bty hv hy h1
    dsimp only at h
    split at h
    · exact replaceYear_valid bty (today.year + 1) occ hbty (by omega) h
    · cases h
      exact hbty

theorem processRecord_some (today : Date) (r : Rec) (b occ : Date)
    (hb : r.birthday = some b) (hocc : occurrenceDate today b = .ok occ) :
    processRecord today r =
      if 0 ≤ daysUntil today occ ∧ daysUntil today occ ≤ 6 then
        .ok (some (r.name, strftimeDMY (congratulation occ)))
      else .ok none := by
  unfold processRecord
  rw [hb]
  dsimp only
  rw [hocc]

theorem collectUpcoming_mem (today : Date) (rs : List Rec)
    (out : List (String × String))
    (hok : collectUpcoming today rs = .ok out) (r : Rec) (hr : r ∈ rs) :
    ∃ v, processRecord today r = .ok v ∧ ∀ e, v = some e → e ∈ out := by
  induction rs generalizing out with
  | nil => cases hr
  | cons r0 rest ih =>
    unfold collectUpcoming at hok
    cases hpr : processRecord today r0 with
    | error e =>
      rw [hpr] at hok
      cases hok
    | ok v0 =>
      rw [hpr] at hok
      cases v0 with
      | none =>
        dsimp only at hok
        rcases List.mem_cons.mp hr with rfl | hmem
        · exact ⟨none, hpr, fun e he => by cases he⟩
        · exact ih out hok hmem
      | some entry =>
        dsimp only at hok
        cases hrest : collectUpcoming today rest with
        | error e =>
          rw [hrest] at hok
          cases hok
        | ok out2 =>
          rw [hrest] at hok
          dsimp only at hok
          cases hok
          rcases List.mem_cons.mp hr with rfl | hmem
          · exact ⟨some entry, hpr, fun e he => by cases he; exact List.mem_cons_self _ _⟩
          · obtain ⟨v, hv, hin⟩ := ih out2 hrest hmem
            exact ⟨v, hv, fun e he => List.mem_cons_of_mem _ (hin e he)⟩

/-- C2. The occurrence is the birthday's month/day in today's year
(`replace(year=today.year)`); strictly before today it is rolled to the
same month/day of next year, an occurrence equal to today (or later) is
left as is. At today = 2024-12-30 with birthday month/day 01/02 this
gives 2025-01-02, `days_until = 3`, and the record is included. -/
theorem occurrence_rollover :
    (∀ (b : Date) (y : Nat) (bty : Date), replaceYear b y = .ok bty →
      bty = ⟨y, b.month, b.day⟩) ∧
    (∀ today b bty, replaceYear b today.year = .ok bty → ¬ dateLt bty today →
      occurrenceDate today b = .ok bty) ∧
    (∀ today b bty, replaceYear b today.year = .ok bty → dateLt bty today →
      occurrenceDate today b = replaceYear bty (today.year + 1)) ∧
    occurrenceDate ⟨2024, 12, 30⟩ ⟨1990, 1, 2⟩ = .ok ⟨2025, 1, 2⟩ ∧
    daysUntil ⟨2024, 12, 30⟩ ⟨2025, 1, 2⟩ = 3 ∧
    processRecord ⟨2024, 12, 30⟩ ⟨"x", [], some ⟨1990, 1, 2⟩⟩
      = .ok (some ("x", strftimeDMY (congratulation ⟨2025, 1, 2⟩))) := by
  refine ⟨replaceYear_ok, fun today b bty h hlt => ?_, fun today b bty h hlt => ?_,
    by rfl, by rfl, by rfl⟩
  · unfold occurrenceDate
    rw [h]
    dsimp only
    rw [if_neg hlt]
  · unfold occurrenceDate
    rw [h]
    dsimp only
    rw [if_pos hlt]

/-- Witness for C2: an occurrence not yet passed (June 16 seen from
June 10) is not rolled. -/
theorem occurrence_rollover_witness :
    occurrenceDate ⟨2024, 6, 10⟩ ⟨1990, 6, 16⟩ = .ok ⟨2024, 6, 16⟩ := by
  exact occurrence_rollover.2.1 ⟨2024, 6, 10⟩ ⟨1990, 6, 16⟩ ⟨2024, 6, 16⟩
    (by rfl) (by decide)

/-- C3. An emitted pair carries the record's raw name and the
`DD.MM.YYYY`-formatted congratulation date, which is the occurrence
shifted by 2 days from a Saturday, by 1 day from a Sunday (both landing
on the following Monday), and unchanged otherwise — so the emitted date
is never a Saturday or a Sunday. -/
theorem congratulation_shift (today : Date) (r : Rec) (b occ : Date)
    (entry : String × String)
    (hb : r.birthday = some b) (hv : dateValid b) (hty : 1 ≤ today.year)
    (hocc : occurrenceDate today b = .ok occ)
    (hout : processRecord today r = .ok (some entry)) :
    entry.1 = r.name ∧
    entry.2 = strftimeDMY (congratulation occ) ∧
    (pyWeekday occ = 5 → congratulation occ = nextDay (nextDay occ) ∧
      rataDie (congratulation occ) = rataDie occ + 2) ∧
    (pyWeekday occ = 6 → congratulation occ = nextDay occ ∧
      rataDie (congratulation occ) = rataDie occ + 1) ∧
    (pyWeekday occ ≠ 5 → pyWeekday occ ≠ 6 → congratulation occ = occ) ∧
    pyWeekday (congratulation occ) ≠ 5 ∧ pyWeekday (congratulation occ) ≠ 6 := by
  have hvocc : dateValid occ := occurrenceDate_valid today b occ hv hty hocc
  have hv1 : dateValid (nextDay occ) := nextDay_valid occ hvocc
  have e1 : rataDie (nextDay occ) = rataDie occ + 1 := rataDie_nextDay occ hvocc
  have e2 : rataDie (nextDay (nextDay occ)) = rataDie occ + 2 := by
    rw [rataDie_nextDay (nextDay occ) hv1, e1]
  have hpr := processRecord_some today r b occ hb hocc
  rw [hpr] at hout
  split at hout
  case isFalse => simp at hout
  case isTrue hcond =>
    simp only [Except.ok.injEq, Option.some.injEq] at hout
    subst hout
    refine ⟨rfl, rfl, fun h5 => ?_, fun h6 => ?_, fun h5 h6 => ?_, ?_, ?_⟩
    · unfold congratulation
      rw [if_pos h5]
      exact ⟨rfl, e2⟩
    · unfold congratulation
      rw [if_neg (by omega), if_pos h6]
      exact ⟨rfl, e1⟩
    · unfold congratulation
      rw [if_neg h5, if_neg h6]
    · unfold congratulation pyWeekday
      split
      · rename_i h5
        rw [e2]
        omega
      · split
        · rename_i h6
          rw [e1]
          omega
        · rename_i h5 h6
          omega
    · unfold congratulation pyWeekday
      split
      · rename_i h5
        rw [e2]
        omega
      · split
        · rename_i h6
          rw [e1]
          omega
        · rename_i h5 h6
          omega

/-- Witness for C3: today = 2024-06-10 (Monday), birthday June 16; the
occurrence 2024-06-16 is a Sunday, so the emitted date 2024-06-17 is the
Monday after — not a weekend day. -/
theorem congratulation_shift_witness :
    pyWeekday (congratulation ⟨2024, 6, 16⟩) ≠ 5 ∧
    pyWeekday (congratulation ⟨2024, 6, 16⟩) ≠ 6 ∧
    ("ann lee", "17.06.2024").2 = strftimeDMY (congratulation ⟨2024, 6, 16⟩) := by
  have h := congratulation_shift ⟨2024, 6, 10⟩ ⟨"ann lee", [], some ⟨1990, 6, 16⟩⟩
    ⟨1990, 6, 16⟩ ⟨2024, 6, 16⟩ ("ann lee", "17.06.2024")
    rfl (by decide) (by decide) (by rfl) (by rfl)
  exact ⟨h.2.2.2.2.2.1, h.2.2.2.2.2.2, h.2.1⟩

/-- C1. When `get_upcoming_birthdays` returns, a record without a birthday
contributes nothing, and a record with a birthday whose occurrence was
computed contributes an entry to the output exactly when
`0 ≤ days_until ≤ 6`. -/
theorem upcoming_window (today : Date) (book : Book)
    (out : List (String × String)) (k : String) (r : Rec)
    (hok : getUpcomingBirthdays today book = .ok out) (hmem : (k, r) ∈ book) :
    (r.birthday = none → processRecord today r = .ok none) ∧
    (∀ b occ, r.birthday = some b → occurrenceDate today b = .ok occ →
      ((∃ e, processRecord today r = .ok (some e) ∧ e ∈ out) ↔
        (0 ≤ daysUntil today occ ∧ daysUntil today occ ≤ 6))) := by
  have hrmem : r ∈ book.map (fun kv => kv.2) := List.mem_map_of_mem _ hmem
  obtain ⟨v, hv, hin⟩ := collectUpcoming_mem today _ out hok r hrmem
  constructor
  · intro hb
    unfold processRecord
    rw [hb]
  · intro b occ hb hocc
    have hpr := processRecord_some today r b occ hb hocc
    constructor
    · rintro ⟨e, he, _⟩
      rw [hpr] at he
      by_cases hcond : 0 ≤ daysUntil today occ ∧ daysUntil today occ ≤ 6
      · exact hcond
      · rw [if_neg hcond] at he
        simp at he
    · intro hcond
      rw [hpr, if_pos hcond] at hv
      cases hv
      exact ⟨(r.name, strftimeDMY (congratulation occ)),
        by rw [hpr, if_pos hcond], hin _ rfl⟩

/-- Witness for C1 with today = 2024-06-10: the June 16 birthday
(6 days out) is included — its entry is in the output — and the June 17
birthday (7 days out) is not. -/
theorem upcoming_window_witness :
    (∃ e, processRecord ⟨2024, 6, 10⟩ ⟨"ann", [], some ⟨1990, 6, 16⟩⟩
        = .ok (some e) ∧ e ∈ [("ann", "17.06.2024")]) ∧
    ¬ (∃ e, processRecord ⟨2024, 6, 10⟩ ⟨"ben", [], some ⟨1990, 6, 17⟩⟩
        = .ok (some e) ∧ e ∈ [("ann", "17.06.2024")]) := by
  have hok : getUpcomingBirthdays ⟨2024, 6, 10⟩
      [("ann", ⟨"ann", [], some ⟨1990, 6, 16⟩⟩),
       ("ben", ⟨"ben", [], some ⟨1990, 6, 17⟩⟩)]
        = .ok [("ann", "17.06.2024")] := by rfl
  have hann := upcoming_window ⟨2024, 6, 10⟩ _ _ "ann" ⟨"ann", [], some ⟨1990, 6, 16⟩⟩
    hok (by simp)
  have hben := upcoming_window ⟨2024, 6, 10⟩ _ _ "ben" ⟨"ben", [], some ⟨1990, 6, 17⟩⟩
    hok (by simp)
  constructor
  · exact (hann.2 ⟨1990, 6, 16⟩ ⟨2024, 6, 16⟩ rfl (by rfl)).mpr (by decide)
  · intro hex
    have := (hben.2 ⟨1990, 6, 17⟩ ⟨2024, 6, 17⟩ rfl (by rfl)).mp hex
    revert this
    decide

theorem digit_char_facts (k : Nat) (hk : k ≤ 9) :
    digitVal (Char.ofNat (48 + k)) = k ∧
    isAsciiDigit (Char.ofNat (48 + k)) = true ∧
    Char.ofNat (48 + k) ≠ '.' ∧
    isPySpace (Char.ofNat (48 + k)) = false := by
  interval_cases k <;> exact ⟨by decide, by decide, by decide, by decide⟩

theorem pad2_facts (n : Nat) :
    ∀ c ∈ pad2 n, isAsciiDigit c = true ∧ c ≠ '.' ∧ isPySpace c = false := by
  intro c hc
  have h1 : n / 10 % 10 ≤ 9 := by omega
  have h2 : n % 10 ≤ 9 := by omega
  simp only [pad2, List.mem_cons, List.not_mem_nil, or_false] at hc
  rcases hc with rfl | rfl
  · exact ⟨(digit_char_facts _ h1).2.1, (digit_char_facts _ h1).2.2.1,
      (digit_char_facts _ h1).2.2.2⟩
  · exact ⟨(digit_char_facts _ h2).2.1, (digit_char_facts _ h2).2.2.1,
      (digit_char_facts _ h2).2.2.2⟩

theorem pad4_facts (n : Nat) :
    ∀ c ∈ pad4 n, isAsciiDigit c = true ∧ c ≠ '.' ∧ isPySpace c = false := by
  intro c hc
  have h1 : n / 1000 % 10 ≤ 9 := by omega
  have h2 : n / 100 % 10 ≤ 9 := by omega
  have h3 : n / 10 % 10 ≤ 9 := by omega
  have h4 : n % 10 ≤ 9 := by omega
  simp only [pad4, List.mem_cons, List.not_mem_nil, or_false] at hc
  rcases hc with rfl | rfl | rfl | rfl
  · exact ⟨(digit_char_facts _ h1).2.1, (digit_char_facts _ h1).2.2.1,
      (digit_char_facts _ h1).2.2.2⟩
  · exact ⟨(digit_char_facts _ h2).2.1, (digit_char_facts _ h2).2.2.1,
      (digit_char_facts _ h2).2.2.2⟩
  · exact ⟨(digit_char_facts _ h3).2.1, (digit_char_facts _ h3).2.2.1,
      (digit_char_facts _ h3).2.2.2⟩
  · exact ⟨(digit_char_facts _ h4).2.1, (digit_char_facts _ h4).2.2.1,
      (digit_char_facts _ h4).2.2.2⟩

theorem digitsToNat_pad2 (n : Nat) (h : n ≤ 99) : digitsToNat (pad2 n) = n := by
  have h1 := (digit_char_facts (n / 10 % 10) (by omega)).1
  have h2 := (digit_char_facts (n % 10) (by omega)).1
  simp only [digitsToNat, pad2, List.foldl_cons, List.foldl_nil, h1, h2]
  omega

theorem digitsToNat_pad4 (n : Nat) (h : n ≤ 9999) : digitsToNat (pad4 n) = n := by
  have h1 := (digit_char_facts (n / 1000 % 10) (by omega)).1
  have h2 := (digit_char_facts (n / 100 % 10) (by omega)).1
  have h3 := (digit_char_facts (n / 10 % 10) (by omega)).1
  have h4 := (digit_char_facts (n % 10) (by omega)).1
  simp only [digitsToNat, pad4, List.foldl_cons, List.foldl_nil, h1, h2, h3, h4]
  omega

theorem splitDots_noDot (l : List Char) (h : ∀ c ∈ l, c ≠ '.') :
    splitDots l = [l] := by
  induction l with
  | nil => rfl
  | cons c rest ih =>
    have hih := ih (fun x hx => h x (List.mem_cons_of_mem _ hx))
    have hc := h c (List.mem_cons_self _ _)
    simp [splitDots, hih, hc]

theorem splitDots_append (xs ys : List Char) (h : ∀ c ∈ xs, c ≠ '.') :
    splitDots (xs ++ '.' :: ys) = xs :: splitDots ys := by
  induction xs with
  | nil => simp [splitDots]
  | cons c rest ih =>
    have hih := ih (fun x hx => h x (List.mem_cons_of_mem _ hx))
    have hc := h c (List.mem_cons_self _ _)
    simp [splitDots, hih, hc]

theorem dropWhile_eq_self_of (l : List Char) (h : ∀ c ∈ l, isPySpace c = false) :
    l.dropWhile isPySpace = l := by
  cases l with
  | nil => rfl
  | cons c rest => simp [List.dropWhile_cons, h c (List.mem_cons_self _ _)]

theorem pyStripL_eq_self (l : List Char) (h : ∀ c ∈ l, isPySpace c = false) :
    pyStripL l = l := by
  unfold pyStripL
  rw [dropWhile_eq_self_of l h]
  rw [dropWhile_eq_self_of l.reverse (fun c hc => h c (List.mem_reverse.mp hc))]
  exact List.reverse_reverse l

theorem pyStrip_eq_self (s : String) (h : ∀ c ∈ s.data, isPySpace c = false) :
    pyStrip s = s := by
  unfold pyStrip
  rw [pyStripL_eq_self s.data h]

theorem strftimeDMY_data (D : Date) :
    (strftimeDMY D).data = pad2 D.day ++ '.' :: (pad2 D.month ++ '.' :: pad4 D.year) := by
  simp [strftimeDMY]

theorem parseDMY_strftime (D : Date) (hv : dateValid D) (hy : D.year ≤ 9999) :
    parseDMY (strftimeDMY D).data = some D := by
  obtain ⟨y, m, d⟩ := D
  obtain ⟨h1, h2, h3, h4, h5⟩ := hv
  dsimp only at *
  have hd99 : d ≤ 99 := by
    have := daysInMonth_le_31 y m
    omega
  have hm99 : m ≤ 99 := by omega
  have hsplit : splitDots (strftimeDMY ⟨y, m, d⟩).data = [pad2 d, pad2 m, pad4 y] := by
    rw [strftimeDMY_data]
    dsimp only
    rw [splitDots_append _ _ (fun c hc => (pad2_facts d c hc).2.1)]
    rw [splitDots_append _ _ (fun c hc => (pad2_facts m c hc).2.1)]
    rw [splitDots_noDot _ (fun c hc => (pad4_facts y c hc).2.1)]
  have hguard : pad2 d ≠ [] ∧ (pad2 d).length ≤ 2 ∧ (pad2 d).all isAsciiDigit
      ∧ pad2 m ≠ [] ∧ (pad2 m).length ≤ 2 ∧ (pad2 m).all isAsciiDigit
      ∧ (pad4 y).length = 4 ∧ (pad4 y).all isAsciiDigit := by
    refine ⟨by simp [pad2], by simp [pad2],
      List.all_eq_true.mpr (fun c hc => (pad2_facts d c hc).1),
      by simp [pad2], by simp [pad2],
      List.all_eq_true.mpr (fun c hc => (pad2_facts m c hc).1),
      by simp [pad4],
      List.all_eq_true.mpr (fun c hc => (pad4_facts y c hc).1)⟩
  unfold parseDMY
  rw [hsplit]
  dsimp only
  rw [if_pos hguard]
  rw [digitsToNat_pad2 d hd99, digitsToNat_pad2 m hm99, digitsToNat_pad4 y hy]
  rw [if_pos (show dateValid ⟨y, m, d⟩ from ⟨h1, h2, h3, h4, h5⟩)]

theorem birthday_roundtrip_aux (D : Date) (hv : dateValid D) (hy : D.year ≤ 9999) :
    Birthday.init (.str (strftimeDMY D)) = .ok D := by
  have hns : ∀ c ∈ (strftimeDMY D).data, isPySpace c = false := by
    rw [strftimeDMY_data]
    intro c hc
    rcases List.mem_append.mp hc with h | h
    · exact (pad2_facts D.day c h).2.2
    · rcases List.mem_cons.mp h with rfl | h
      · decide
      · rcases List.mem_append.mp h with h | h
        · exact (pad2_facts D.month c h).2.2
        · rcases List.mem_cons.mp h with rfl | h
          · decide
          · exact (pad4_facts D.year c h).2.2
  have hne : ¬ ((strftimeDMY D).data = []) := by
    rw [strftimeDMY_data]
    simp [pad2]
  unfold Birthday.init
  dsimp only
  rw [pyStrip_eq_self _ hns]
  rw [if_neg hne]
  rw [parseDMY_strftime D hv hy]

/-- C6. Parsing "15.03.1990" yields March 15, 1990, which formats back to
exactly "15.03.1990"; more generally parsing the rendered `DD.MM.YYYY` form
of any representable date returns that date (so render-parse-render is the
identity on `DD.MM.YYYY` text); parsing "" or "not-a-date" fails with
`ValidationError("Invalid date format. Use DD.MM.YYYY")`. -/
theorem birthday_parse_format :
    Birthday.init (.str "15.03.1990") = .ok ⟨1990, 3, 15⟩ ∧
    strftimeDMY ⟨1990, 3, 15⟩ = "15.03.1990" ∧
    (∀ D, dateValid D → D.year ≤ 9999 →
      Birthday.init (.str (strftimeDMY D)) = .ok D) ∧
    Birthday.init (.str "")
      = .error (.valueError "Invalid date format. Use DD.MM.YYYY") ∧
    Birthday.init (.str "not-a-date")
      = .error (.valueError "Invalid date format. Use DD.MM.YYYY") := by
  exact ⟨by rfl, by rfl, fun D hv hy => birthday_roundtrip_aux D hv hy, by rfl, by rfl⟩

/-- Witness for C6 at July 9, 2001. -/
theorem birthday_parse_format_witness :
    Birthday.init (.str (strftimeDMY ⟨2001, 7, 9⟩)) = .ok ⟨2001, 7, 9⟩ := by
  exact birthday_parse_format.2.2.1 ⟨2001, 7, 9⟩ (by decide) (by decide)
